import Mathlib

/-!
Shallow embedding of `src/wasm/multipart.rs` (multipart/form-data building for a
wasm host), together with the parts of the surrounding crate that the file uses
but that are not in the sources (the wasm `Body`/`Single` type, the `mime`
crate's parser and the `crate::error` wrappers); those are modelled from the
specification and marked as such in their doc comments.

The host (`web_sys::FormData`, `Blob` construction) is modelled as an explicit
`Host` record of fallible operations; a `FormData` value is the ordered list of
entries appended to it.
-/

namespace Multipart

/-- A parsed media type, as produced by the `mime` crate: an essence
`type_/subtype` pair.  Comparison in the `mime` crate is case-insensitive, which
the parser model reproduces by lowercasing. -/
structure Mime where
  mainType : String
  subType : String
deriving DecidableEq, Repr

/-- The string form of a media type (`Mime::as_ref`). -/
def Mime.asString (m : Mime) : String := m.mainType ++ "/" ++ m.subType

/-- `mime_guess::mime::TEXT_PLAIN`, the canonical `text/plain` media type. -/
def TEXT_PLAIN : Mime := ⟨"text", "plain"⟩

/-- Whether a character may appear in a media-type token. -/
def mimeTokenChar (c : Char) : Bool :=
  !(c = '/') && !(c = ' ') && !(c = ';') && !(c = ',')

/-- Modelled from the spec: `str::parse::<Mime>` from the external `mime` crate
(not part of this repository's sources).  `with_mime_str` "parses `s` into a
MediaType; fails with `InvalidMime` if unparsable".  A string parses iff it is
`type/subtype` with both parts nonempty tokens; the result is lowercased,
matching the crate's case-insensitive equality. -/
def parseMime (s : String) : Option Mime :=
  match s.data.splitOn '/' with
  | [t, sub] =>
    if !t.isEmpty && !sub.isEmpty && t.all mimeTokenChar && sub.all mimeTokenChar then
      some ⟨⟨t.map Char.toLower⟩, ⟨sub.map Char.toLower⟩⟩
    else
      none
  | _ => none

/-- A host-native binary object (`web_sys::Blob`): a byte payload together with
the content-type it carries (`none` models a blob built without setting the
`type` property). -/
structure BlobObj where
  data : List Nat
  contentType : Option String
deriving DecidableEq, Repr

/-- The UTF-8 encoding of one character. -/
def utf8Bytes (c : Char) : List Nat :=
  let n := c.toNat
  if n < 0x80 then [n]
  else if n < 0x800 then
    [0xC0 ||| (n >>> 6), 0x80 ||| (n &&& 0x3F)]
  else if n < 0x10000 then
    [0xE0 ||| (n >>> 12), 0x80 ||| ((n >>> 6) &&& 0x3F), 0x80 ||| (n &&& 0x3F)]
  else
    [0xF0 ||| (n >>> 18), 0x80 ||| ((n >>> 12) &&& 0x3F),
      0x80 ||| ((n >>> 6) &&& 0x3F), 0x80 ||| (n &&& 0x3F)]

/-- The UTF-8 bytes of a string, as the JS `Blob` constructor encodes a string
part. -/
def strBytes (s : String) : List Nat := (s.data.map utf8Bytes).flatten

/-- Modelled from the spec: the single-payload type of the wasm `Body`
(`super::body::Single`, `body.rs` is not under the sources).  Spec §3: Payload
is a closed variant over Text, Bytes, Stream (opaque bytes), plus the
native-binary-object (blob) case at the host boundary. -/
inductive Single where
  | text (s : String)
  | bytes (bs : List Nat)
  | blob (b : BlobObj)
deriving DecidableEq, Repr

/-- The `JsValue` a single payload contributes to a blob's part sequence,
viewed as the bytes the resulting blob will contain (`Single::to_js_value`). -/
def Single.to_js_value : Single → List Nat
  | .text s => strBytes s
  | .bytes bs => bs
  | .blob b => b.data

/-- Modelled from the spec: the wasm request `Body` (`body.rs` is not under the
sources).  A body is either a single payload or a whole multipart form; the
multipart case is what the encoder's `expect` guards against. -/
inductive Body where
  | single (s : Single)
  | multipart
deriving DecidableEq, Repr

/-- `Body::as_single`: `some` for a single payload, `none` when the body is
itself a multipart form. -/
def Body.as_single : Body → Option Single
  | .single s => some s
  | .multipart => none

/-- Modelled from the spec: `Body::into_part` converts a body for use inside a
part; for single payloads it is the identity. -/
def Body.into_part (b : Body) : Body := b

/-- Metadata of a part: optional mime, optional filename, custom headers
(`PartMetadata`). -/
structure PartMetadata where
  mime : Option Mime
  file_name : Option String
  headers : List (String × String)
deriving DecidableEq, Repr

/-- `PartMetadata::new`. -/
def PartMetadata.new : PartMetadata := ⟨none, none, []⟩

/-- `PartMetadata::mime` (builder; named apart from the field accessor). -/
def PartMetadata.setMime (m : PartMetadata) (mime : Mime) : PartMetadata :=
  { m with mime := some mime }

/-- `PartMetadata::file_name` (builder; named apart from the field accessor). -/
def PartMetadata.setFileName (m : PartMetadata) (filename : String) : PartMetadata :=
  { m with file_name := some filename }

/-- `PartMetadata::headers` (builder; named apart from the field accessor). -/
def PartMetadata.setHeaders (m : PartMetadata) (headers : List (String × String)) :
    PartMetadata :=
  { m with headers := headers }

/-- A field of a multipart form (`Part`). -/
structure Part where
  meta : PartMetadata
  value : Body
deriving DecidableEq, Repr

/-- `PartProps::metadata`. -/
def Part.metadata (p : Part) : PartMetadata := p.meta

/-- `Part::new`. -/
def Part.new (value : Body) : Part :=
  { meta := PartMetadata.new, value := value.into_part }

/-- `Part::text`: a textual payload (`Body::from` a string is a `Text`
single). -/
def Part.text (value : String) : Part := Part.new (.single (.text value))

/-- `Part::bytes`: a raw-bytes payload. -/
def Part.bytes (value : List Nat) : Part := Part.new (.single (.bytes value))

/-- Modelled from the spec: the public conversions into `Body` accepted by
`Part::stream` cover native binary objects (blobs) and opaque byte streams;
no public conversion accepts a multipart `Form` (spec §4.2: "no public
constructor accepts a Form"). -/
inductive StreamSource where
  | blob (b : BlobObj)
  | opaqueBytes (bs : List Nat)
deriving DecidableEq, Repr

/-- The body a public stream source converts into. -/
def StreamSource.into_body : StreamSource → Body
  | .blob b => .single (.blob b)
  | .opaqueBytes bs => .single (.bytes bs)

/-- `Part::stream`. -/
def Part.stream (value : StreamSource) : Part := Part.new value.into_body

/-- `Part::with_inner`: apply a metadata transformer, keeping the value. -/
def Part.with_inner (p : Part) (func : PartMetadata → PartMetadata) : Part :=
  { meta := func p.meta, value := p.value }

/-- `Part::mime` (private builder). -/
def Part.mime (p : Part) (mime : Mime) : Part :=
  p.with_inner (fun inner => inner.setMime mime)

/-- `Part::file_name`. -/
def Part.file_name (p : Part) (filename : String) : Part :=
  p.with_inner (fun inner => inner.setFileName filename)

/-- `Part::headers`. -/
def Part.headers (p : Part) (headers : List (String × String)) : Part :=
  p.with_inner (fun inner => inner.setHeaders headers)

/-- The kind of a crate error relevant here (`crate::error::Kind::Builder`). -/
inductive ErrorKind where
  | builder
deriving DecidableEq, Repr

/-- Modelled from the spec: `crate::Error` (`error.rs` is not under the
sources) — a kind plus the boxed source error's message. -/
structure ReqError where
  kind : ErrorKind
  source : String
deriving DecidableEq, Repr

/-- Modelled from the spec: `crate::error::wasm` formats a JS error value into
an opaque boxed-error message; it receives only the JS value. -/
def errorWasm (js : String) : String := "JsValue(" ++ js ++ ")"

/-- Modelled from the spec: `crate::error::builder` wraps a source error as a
builder-kind crate error; it receives only the source error. -/
def errorBuilder (e : String) : ReqError := ⟨.builder, e⟩

/-- `Part::mime_str`: parse the string eagerly; on success set the mime, on
failure return the builder-wrapped parse error. -/
def Part.mime_str (p : Part) (mime : String) : Except ReqError Part :=
  match parseMime mime with
  | some m => .ok (p.mime m)
  | none => .error (errorBuilder ("invalid mime: " ++ mime))

/-- One entry accumulated in a `web_sys::FormData` sink: the observable result
of one of the three append operations the encoder uses. -/
inductive FormEntry where
  | str (name : String) (value : String)
  | blobNamed (name : String) (blob : BlobObj) (fileName : String)
  | blobUnnamed (name : String) (blob : BlobObj)
deriving DecidableEq, Repr

/-- A `FormData` sink is the ordered list of entries appended so far. -/
abbrev FormData := List FormEntry

/-- The host (`web_sys` / JS) side, as an oracle deciding which fallible host
operations fail and with which JS error value: `FormData::new`, the three
`FormData` append operations (which may inspect the sink's current state), and
`Blob::new_with_u8_array_sequence_and_options` (given the bytes and the `type`
property, set or not). -/
structure Host where
  newFormDataErr : Option String
  appendErr : FormData → FormEntry → Option String
  blobBuildErr : List Nat → Option String → Option String

/-- The outcome of a host-level operation inside `append_to_form`: success, a
JS error value (`Err(JsValue)`), or a Rust panic (`expect`). -/
inductive Outcome (α : Type) where
  | ok (a : α)
  | jsErr (e : String)
  | panic (msg : String)
deriving DecidableEq, Repr

/-- A `FormData` append operation: on success the entry goes to the end of the
sink's entry list (JS `FormData.append` appends). -/
def Host.append (h : Host) (form : FormData) (e : FormEntry) : Outcome FormData :=
  match h.appendErr form e with
  | some err => .jsErr err
  | none => .ok (form ++ [e])

/-- `Part::blob`: build a `Blob` from the part's single payload's bytes, with
the `type` property set to `mime_type` when present.  The crate-level error the
source produces is carried to the caller as a JS error value (the `?` in
`append_to_form` converts it); the panic models the `expect` on a multipart
body. -/
def Part.blob (p : Part) (h : Host) (mime_type : Option Mime) : Outcome BlobObj :=
  match p.value.as_single with
  | none => .panic "A part's body can't be set to a multipart body"
  | some single =>
    let js_value := single.to_js_value
    match h.blobBuildErr js_value (mime_type.map Mime.asString) with
    | some e => .jsErr (errorBuilder (errorWasm e)).source
    | none => .ok ⟨js_value, mime_type.map Mime.asString⟩

/-- The tail of `Part::append_to_form` shared by the non-early-return paths:
build the blob with the effective mime, then append it named (when `file_name`
is set) or unnamed. -/
def Part.appendBlobTo (p : Part) (h : Host) (mime_type : Option Mime) (name : String)
    (form : FormData) : Outcome FormData :=
  match p.blob h mime_type with
  | .panic m => .panic m
  | .jsErr e => .jsErr e
  | .ok blob =>
    match p.metadata.file_name with
    | some file_name => h.append form (.blobNamed name blob file_name)
    | none => h.append form (.blobUnnamed name blob)

/-- `Part::append_to_form`, mirroring the source's control flow: panic if the
body is not single; a `Blob` single is appended directly (named or unnamed),
its own embedded type untouched; a `Text` single with mime unset-or-text/plain
and no file name is appended as a plain string, while a text with another mime
has the effective mime forced to `text/plain`; everything else falls through to
blob building with the effective mime. -/
def Part.append_to_form (p : Part) (h : Host) (name : String) (form : FormData) :
    Outcome FormData :=
  match p.value.as_single with
  | none => .panic "A part's body can't be multipart itself"
  | some single =>
    let mime_type := p.metadata.mime
    match single with
    | .blob blob =>
      match p.metadata.file_name with
      | some file_name => h.append form (.blobNamed name blob file_name)
      | none => h.append form (.blobUnnamed name blob)
    | .text text =>
      if mime_type = none ∨ mime_type = some TEXT_PLAIN then
        if p.metadata.file_name = none then
          h.append form (.str name text)
        else
          p.appendBlobTo h mime_type name form
      else
        p.appendBlobTo h (some TEXT_PLAIN) name form
    | .bytes _ =>
      p.appendBlobTo h mime_type name form

/-- `FormParts<Part>`: the ordered field list. -/
structure FormParts where
  fields : List (String × Part)
deriving DecidableEq, Repr

/-- `FormParts::new`. -/
def FormParts.new : FormParts := ⟨[]⟩

/-- `FormParts::part`: push the named part at the end of the field list. -/
def FormParts.part (fp : FormParts) (name : String) (part : Part) : FormParts :=
  ⟨fp.fields ++ [(name, part)]⟩

/-- A multipart `Form`. -/
structure Form where
  inner : FormParts
deriving DecidableEq, Repr

/-- `Form::new`. -/
def Form.new : Form := ⟨FormParts.new⟩

/-- `Form::is_empty`. -/
def Form.is_empty (f : Form) : Bool := f.inner.fields.isEmpty

/-- `Form::with_inner`. -/
def Form.with_inner (f : Form) (func : FormParts → FormParts) : Form :=
  ⟨func f.inner⟩

/-- `Form::part`. -/
def Form.part (f : Form) (name : String) (part : Part) : Form :=
  f.with_inner (fun inner => inner.part name part)

/-- `Form::text`. -/
def Form.text (f : Form) (name value : String) : Form :=
  f.part name (Part.text value)

/-- The result of `Form::to_form_data`: `crate::Result<FormData>`, plus the
panic outcome an `expect` inside a part could raise. -/
inductive EncodeResult where
  | ok (form : FormData)
  | err (e : ReqError)
  | panic (msg : String)
deriving DecidableEq, Repr

/-- The field iteration of `Form::to_form_data`: each part's JS append failure
is wrapped by `crate::error::wasm` then `crate::error::builder` and returned,
aborting the remaining fields. -/
def Form.to_form_data_loop (h : Host) : List (String × Part) → FormData → EncodeResult
  | [], form => .ok form
  | (name, part) :: rest, form =>
    match part.append_to_form h name form with
    | .panic m => .panic m
    | .jsErr e => .err (errorBuilder (errorWasm e))
    | .ok form2 => Form.to_form_data_loop h rest form2

/-- `Form::to_form_data`: create the `FormData`, then append every field in
order, fail-fast on the first error. -/
def Form.to_form_data (f : Form) (h : Host) : EncodeResult :=
  match h.newFormDataErr with
  | some e => .err (errorBuilder (errorWasm e))
  | none => Form.to_form_data_loop h f.inner.fields []

/-- A host on which every operation succeeds. -/
def okHost : Host := ⟨none, fun _ _ => none, fun _ _ => none⟩

/-- A host on which every append operation fails with the JS error value
`"boom"`. -/
def failHost : Host := ⟨none, fun _ _ => some "boom", fun _ _ => none⟩

/-- Whether an `append_to_form` outcome is a Rust panic (`expect`). -/
def Outcome.isPanic {α : Type} : Outcome α → Bool
  | .panic _ => true
  | _ => false

/-- The blob entry the fall-through path of `append_to_form` appends: a blob of
the given bytes typed with the effective mime, named with `file_name` when set,
else unnamed. -/
def Part.blobEntry (p : Part) (name : String) (mime_type : Option Mime)
    (bs : List Nat) : FormEntry :=
  match p.meta.file_name with
  | some fn => .blobNamed name ⟨bs, mime_type.map Mime.asString⟩ fn
  | none => .blobUnnamed name ⟨bs, mime_type.map Mime.asString⟩

/-- The one entry `append_to_form` appends for field `name` when every host
operation succeeds; `none` only for the (unreachable) multipart body. -/
def Part.entryFor (p : Part) (name : String) : Option FormEntry :=
  match p.value.as_single with
  | none => none
  | some single =>
    match single with
    | .blob b =>
      match p.meta.file_name with
      | some fn => some (.blobNamed name b fn)
      | none => some (.blobUnnamed name b)
    | .text text =>
      if p.meta.mime = none ∨ p.meta.mime = some TEXT_PLAIN then
        if p.meta.file_name = none then
          some (.str name text)
        else
          some (p.blobEntry name p.meta.mime (strBytes text))
      else
        some (p.blobEntry name (some TEXT_PLAIN) (strBytes text))
    | .bytes bs => some (p.blobEntry name p.meta.mime bs)

/-- Parts reachable through the public constructors (`text`, `bytes`,
`stream`) and the public builder operations (`mime_str` — and its private
delegate `mime` — `file_name`, `headers`). -/
inductive PublicPart : Part → Prop where
  | text (v : String) : PublicPart (Part.text v)
  | bytes (bs : List Nat) : PublicPart (Part.bytes bs)
  | stream (s : StreamSource) : PublicPart (Part.stream s)
  | mime_str (p q : Part) (s : String) :
      PublicPart p → p.mime_str s = .ok q → PublicPart q
  | file_name (p : Part) (fn : String) : PublicPart p → PublicPart (p.file_name fn)
  | headers (p : Part) (hd : List (String × String)) :
      PublicPart p → PublicPart (p.headers hd)

/-- `Form::to_form_data` takes `&self` (a shared borrow); the embedding records
this by returning the borrowed form, untouched, next to the result. -/
def Form.to_form_data_borrow (f : Form) (h : Host) : EncodeResult × Form :=
  (f.to_form_data h, f)

end Multipart

namespace Multipart

example : parseMime "text/plain" = some TEXT_PLAIN := by decide
example : parseMime "Text/PLAIN" = some TEXT_PLAIN := by decide
example : parseMime "application/json" = some ⟨"application", "json"⟩ := by decide
example : parseMime "nonsense" = none := by decide
example : parseMime "a/b/c" = none := by decide
example : strBytes "hi" = [104, 105] := by decide

example :
    (Form.new.text "a" "1").to_form_data okHost = .ok [.str "a" "1"] := by decide

example :
    (Form.new.part "j" (((Part.text "hi").mime_str "application/json").toOption.getD
      (Part.text "hi"))).to_form_data okHost =
      .ok [.blobUnnamed "j" ⟨[104, 105], some "text/plain"⟩] := by decide

example :
    (Form.new.part "f" (((Part.bytes [0, 42]).file_name "x.bin").mime_str
        "application/octet-stream" |>.toOption.getD (Part.bytes []))).to_form_data okHost =
      .ok [.blobNamed "f" ⟨[0, 42], some "application/octet-stream"⟩ "x.bin"] := by decide

example :
    (Form.new.part "n" ((Part.text "plain").file_name "note.txt")).to_form_data okHost =
      .ok [.blobNamed "n" ⟨strBytes "plain", none⟩ "note.txt"] := by decide

/-- C1: A textual field whose configured mime is set to something other than
`text/plain` is appended as a binary attachment (a blob entry, not a plain
string entry) whose effective content-type is `text/plain`, regardless of
whether `file_name` is set; the attachment is named with `file_name` when set,
else unnamed. -/
theorem C1_text_custom_mime_downgraded (h : Host) (p : Part) (text name : String)
    (m : Mime) (form : FormData)
    (hv : p.value = .single (.text text))
    (hm : p.meta.mime = some m) (hne : m ≠ TEXT_PLAIN)
    (hblob : h.blobBuildErr (strBytes text) (some (Mime.asString TEXT_PLAIN)) = none)
    (happ : ∀ e, h.appendErr form e = none) :
    Mime.asString TEXT_PLAIN = "text/plain" ∧
      p.append_to_form h name form = .ok (form ++
        [match p.meta.file_name with
          | some fn =>
            FormEntry.blobNamed name ⟨strBytes text, some (Mime.asString TEXT_PLAIN)⟩ fn
          | none =>
            FormEntry.blobUnnamed name ⟨strBytes text, some (Mime.asString TEXT_PLAIN)⟩]) := by
  refine ⟨rfl, ?_⟩
  obtain ⟨⟨mi, fn, hd⟩, v⟩ := p
  simp only at hv hm
  subst hv hm
  cases fn <;>
    simp [Part.append_to_form, Part.metadata, Part.appendBlobTo, Part.blob, Body.as_single,
      Single.to_js_value, Host.append, hblob, happ, hne]

/-- C1 witness: `text "hi"` with mime `application/json` and no file name is
appended as an unnamed blob typed `text/plain`. -/
theorem C1_text_custom_mime_downgraded_witness :
    Mime.asString TEXT_PLAIN = "text/plain" ∧
      ((Part.text "hi").mime ⟨"application", "json"⟩).append_to_form okHost "j" [] =
        .ok [FormEntry.blobUnnamed "j" ⟨strBytes "hi", some (Mime.asString TEXT_PLAIN)⟩] :=
  C1_text_custom_mime_downgraded okHost ((Part.text "hi").mime ⟨"application", "json"⟩)
    "hi" "j" ⟨"application", "json"⟩ [] rfl rfl (by decide) rfl (fun _ => rfl)

/-- C2: A field whose payload is a native binary object (blob) is appended
directly under the field's name — named with `file_name` when set, else
unnamed — with the blob value (hence its embedded content-type) unchanged; the
part's configured mime is arbitrary here and does not occur in the result, so
it is ignored. -/
theorem C2_blob_appended_directly (h : Host) (p : Part) (b : BlobObj) (name : String)
    (form : FormData)
    (hv : p.value = .single (.blob b))
    (happ : ∀ e, h.appendErr form e = none) :
    p.append_to_form h name form = .ok (form ++
      [match p.meta.file_name with
        | some fn => FormEntry.blobNamed name b fn
        | none => FormEntry.blobUnnamed name b]) := by
  obtain ⟨⟨mi, fn, hd⟩, v⟩ := p
  simp only at hv
  subst hv
  cases fn <;> simp [Part.append_to_form, Part.metadata, Body.as_single, Host.append, happ]

/-- C2 witness: a blob part with a configured mime `application/json` is
appended unchanged, embedded type `image/jpeg` intact. -/
theorem C2_blob_appended_directly_witness :
    ((Part.stream (.blob ⟨[0, 42], some "image/jpeg"⟩)).mime
        ⟨"application", "json"⟩).append_to_form okHost "b" [] =
      .ok [FormEntry.blobUnnamed "b" ⟨[0, 42], some "image/jpeg"⟩] :=
  C2_blob_appended_directly okHost
    ((Part.stream (.blob ⟨[0, 42], some "image/jpeg"⟩)).mime ⟨"application", "json"⟩)
    ⟨[0, 42], some "image/jpeg"⟩ "b" [] rfl (fun _ => rfl)

/-- C3: A textual field whose configured mime is unset or exactly the canonical
`text/plain` and whose `file_name` is unset is appended as a plain string entry
via the sink's string-append operation; a string entry carries no content-type
and no filename. -/
theorem C3_plain_text_fast_path (h : Host) (p : Part) (text name : String) (form : FormData)
    (hv : p.value = .single (.text text))
    (hm : p.meta.mime = none ∨ p.meta.mime = some TEXT_PLAIN)
    (hf : p.meta.file_name = none)
    (happ : h.appendErr form (.str name text) = none) :
    p.append_to_form h name form = .ok (form ++ [FormEntry.str name text]) := by
  obtain ⟨⟨mi, fn, hd⟩, v⟩ := p
  simp only at hv hf hm
  subst hv hf
  simp [Part.append_to_form, Part.metadata, Body.as_single, Host.append, hm, happ]

/-- C3 witness: `text "CONTENT"` with no mime and no file name is appended as
the plain string entry. -/
theorem C3_plain_text_fast_path_witness :
    (Part.text "CONTENT").append_to_form okHost "string" [] =
      .ok [FormEntry.str "string" "CONTENT"] :=
  C3_plain_text_fast_path okHost (Part.text "CONTENT") "CONTENT" "string" []
    rfl (Or.inl rfl) rfl rfl

/-- C5: A field whose payload is raw bytes (`Part::bytes`) or an opaque
non-blob stream (which carries the same `Bytes` single) is encoded by building
a blob from the payload's bytes with the configured mime unchanged — including
mime unset — and appending it named when `file_name` is set, else unnamed. -/
theorem C5_bytes_blob_mime_unchanged (h : Host) (p : Part) (bs : List Nat) (name : String)
    (form : FormData)
    (hv : p.value = .single (.bytes bs))
    (hblob : h.blobBuildErr bs (p.meta.mime.map Mime.asString) = none)
    (happ : ∀ e, h.appendErr form e = none) :
    (Part.bytes bs).value = .single (.bytes bs) ∧
      (Part.stream (.opaqueBytes bs)).value = .single (.bytes bs) ∧
      p.append_to_form h name form = .ok (form ++
        [match p.meta.file_name with
          | some fn =>
            FormEntry.blobNamed name ⟨bs, p.meta.mime.map Mime.asString⟩ fn
          | none =>
            FormEntry.blobUnnamed name ⟨bs, p.meta.mime.map Mime.asString⟩]) := by
  refine ⟨rfl, rfl, ?_⟩
  obtain ⟨⟨mi, fn, hd⟩, v⟩ := p
  simp only at hv hblob
  subst hv
  cases fn <;>
    simp [Part.append_to_form, Part.metadata, Part.appendBlobTo, Part.blob, Body.as_single,
      Single.to_js_value, Host.append, hblob, happ]

/-- C5 witness: `bytes [0, 42]` with file name `x.bin` and mime
`application/octet-stream` is appended as the named attachment with that exact
type and those bytes. -/
theorem C5_bytes_blob_mime_unchanged_witness :
    (Part.bytes [0, 42]).value = .single (.bytes [0, 42]) ∧
      (Part.stream (.opaqueBytes [0, 42])).value = .single (.bytes [0, 42]) ∧
      (((Part.bytes [0, 42]).file_name "x.bin").mime
          ⟨"application", "octet-stream"⟩).append_to_form okHost "f" [] =
        .ok [FormEntry.blobNamed "f" ⟨[0, 42], some "application/octet-stream"⟩ "x.bin"] :=
  C5_bytes_blob_mime_unchanged okHost
    (((Part.bytes [0, 42]).file_name "x.bin").mime ⟨"application", "octet-stream"⟩)
    [0, 42] "f" [] rfl rfl (fun _ => rfl)

/-- C7: `mime_str` parses eagerly: it fails (with the builder-wrapped parse
error) exactly when the string does not parse as a media type, and on success
it returns the part with its mime set to the parsed media type.  The operation
is a pure function of the part and the string — no host/sink operation is
involved, so an unparsable mime never reaches encode time. -/
theorem C7_mime_str_eager (p : Part) (s : String) :
    (match parseMime s with
      | some m =>
        p.mime_str s = .ok (p.mime m) ∧ (p.mime m).meta.mime = some m ∧
          (p.mime m).value = p.value
      | none => p.mime_str s = .error (errorBuilder ("invalid mime: " ++ s))) := by
  unfold Part.mime_str
  cases parseMime s with
  | none => simp
  | some m =>
    exact ⟨rfl, rfl, rfl⟩

/-- C9: Each metadata builder (`mime` — hence `mime_str` on success —
`file_name`, `headers`) leaves the part's payload unchanged and replaces only
its own metadata component, leaving the other two intact. -/
theorem C9_builders_frame (p q : Part) (s : String) (m : Mime) (fn : String)
    (hd : List (String × String))
    (hq : p.mime_str s = .ok q) :
    ((p.mime m).value = p.value ∧ (p.mime m).meta.file_name = p.meta.file_name ∧
        (p.mime m).meta.headers = p.meta.headers ∧ (p.mime m).meta.mime = some m) ∧
      (q.value = p.value ∧ q.meta.file_name = p.meta.file_name ∧
        q.meta.headers = p.meta.headers) ∧
      ((p.file_name fn).value = p.value ∧ (p.file_name fn).meta.mime = p.meta.mime ∧
        (p.file_name fn).meta.headers = p.meta.headers ∧
        (p.file_name fn).meta.file_name = some fn) ∧
      ((p.headers hd).value = p.value ∧ (p.headers hd).meta.mime = p.meta.mime ∧
        (p.headers hd).meta.file_name = p.meta.file_name ∧
        (p.headers hd).meta.headers = hd) := by
  refine ⟨⟨rfl, rfl, rfl, rfl⟩, ?_, ⟨rfl, rfl, rfl, rfl⟩, ⟨rfl, rfl, rfl, rfl⟩⟩
  unfold Part.mime_str at hq
  cases hpm : parseMime s with
  | none => rw [hpm] at hq; exact absurd hq (by simp)
  | some m2 =>
    rw [hpm] at hq
    simp only [Except.ok.injEq] at hq
    subst hq
    exact ⟨rfl, rfl, rfl⟩

/-- C9 witness: instantiated at `text "a"` with `mime_str "text/plain"`. -/
theorem C9_builders_frame_witness :
    (((Part.text "a").mime ⟨"image", "png"⟩).value = (Part.text "a").value ∧
        ((Part.text "a").mime ⟨"image", "png"⟩).meta.file_name =
          (Part.text "a").meta.file_name ∧
        ((Part.text "a").mime ⟨"image", "png"⟩).meta.headers =
          (Part.text "a").meta.headers ∧
        ((Part.text "a").mime ⟨"image", "png"⟩).meta.mime = some ⟨"image", "png"⟩) ∧
      (((Part.text "a").mime TEXT_PLAIN).value = (Part.text "a").value ∧
        ((Part.text "a").mime TEXT_PLAIN).meta.file_name = (Part.text "a").meta.file_name ∧
        ((Part.text "a").mime TEXT_PLAIN).meta.headers = (Part.text "a").meta.headers) ∧
      (((Part.text "a").file_name "f").value = (Part.text "a").value ∧
        ((Part.text "a").file_name "f").meta.mime = (Part.text "a").meta.mime ∧
        ((Part.text "a").file_name "f").meta.headers = (Part.text "a").meta.headers ∧
        ((Part.text "a").file_name "f").meta.file_name = some "f") ∧
      (((Part.text "a").headers [("k", "v")]).value = (Part.text "a").value ∧
        ((Part.text "a").headers [("k", "v")]).meta.mime = (Part.text "a").meta.mime ∧
        ((Part.text "a").headers [("k", "v")]).meta.file_name =
          (Part.text "a").meta.file_name ∧
        ((Part.text "a").headers [("k", "v")]).meta.headers = [("k", "v")]) :=
  C9_builders_frame (Part.text "a") ((Part.text "a").mime TEXT_PLAIN) "text/plain"
    ⟨"image", "png"⟩ "f" [("k", "v")] rfl

theorem to_form_data_loop_append (h : Host) (pre rest : List (String × Part))
    (form : FormData) :
    Form.to_form_data_loop h (pre ++ rest) form =
      match Form.to_form_data_loop h pre form with
      | .ok s => Form.to_form_data_loop h rest s
      | .err e => .err e
      | .panic m => .panic m := by
  induction pre generalizing form with
  | nil => simp [Form.to_form_data_loop]
  | cons np pre ih =>
    obtain ⟨name, part⟩ := np
    simp only [List.cons_append, Form.to_form_data_loop]
    cases part.append_to_form h name form <;> simp [ih]

/-- C4 (counterexample): two one-field forms differing only in the field's
name, encoded against a host whose append fails with `"boom"`, surface the
identical error — so the surfaced error cannot carry the offending field's
name. -/
theorem C4_append_error_counterexample :
    (Form.new.text "fieldA" "v").to_form_data failHost =
        (Form.new.text "fieldB" "v").to_form_data failHost ∧
      (Form.new.text "fieldA" "v").to_form_data failHost =
        .err (errorBuilder (errorWasm "boom")) ∧
      "fieldA" ≠ "fieldB" := by decide

/-- C4 (amended): the first sink-operation failure during encoding is wrapped
(`crate::error::wasm`, then `crate::error::builder`) and surfaced, aborting the
iteration: the result does not depend on the fields after the failing one, so
no further sink operation is attempted, and there is no retry.  The wrapped
error carries only the JS cause, not the offending field's name. -/
theorem C4_append_error_failfast (h : Host) (f : Form) (pre post : List (String × Part))
    (name : String) (p : Part) (s : FormData) (e : String)
    (hn : h.newFormDataErr = none)
    (hfields : f.inner.fields = pre ++ (name, p) :: post)
    (hpre : Form.to_form_data_loop h pre [] = .ok s)
    (hfail : p.append_to_form h name s = .jsErr e) :
    f.to_form_data h = .err (errorBuilder (errorWasm e)) := by
  unfold Form.to_form_data
  rw [hn, hfields, to_form_data_loop_append, hpre]
  simp [Form.to_form_data_loop, hfail]

/-- C4 witness: the amended fail-fast behavior at a concrete one-field form. -/
theorem C4_append_error_failfast_witness :
    (Form.new.text "a" "1").to_form_data failHost =
      .err (errorBuilder (errorWasm "boom")) :=
  C4_append_error_failfast failHost (Form.new.text "a" "1") [] [] "a" (Part.text "1")
    [] "boom" rfl rfl rfl rfl

theorem append_to_form_entryFor (h : Host) (p : Part) (name : String) (form : FormData)
    (s : Single) (hv : p.value = .single s)
    (hball : ∀ bs t, h.blobBuildErr bs t = none)
    (happ : ∀ st e, h.appendErr st e = none) :
    ∃ e, p.entryFor name = some e ∧ p.append_to_form h name form = .ok (form ++ [e]) := by
  obtain ⟨⟨mi, fn, hd⟩, v⟩ := p
  simp only at hv
  subst hv
  cases s with
  | blob b =>
    cases fn <;>
      simp [Part.entryFor, Part.append_to_form, Part.metadata, Body.as_single,
        Host.append, happ]
  | text t =>
    by_cases hc : mi = none ∨ mi = some TEXT_PLAIN <;>
      cases fn <;>
        simp [Part.entryFor, Part.append_to_form, Part.metadata, Part.appendBlobTo,
          Part.blob, Part.blobEntry, Body.as_single, Single.to_js_value, Host.append,
          happ, hball, hc]
  | bytes bs =>
    cases fn <;>
      simp [Part.entryFor, Part.append_to_form, Part.metadata, Part.appendBlobTo,
        Part.blob, Part.blobEntry, Body.as_single, Single.to_js_value, Host.append,
        happ, hball]

theorem to_form_data_loop_all_ok (h : Host)
    (hball : ∀ bs t, h.blobBuildErr bs t = none)
    (happ : ∀ st e, h.appendErr st e = none) :
    ∀ (l : List (String × Part)),
      (∀ np ∈ l, ∃ s, np.2.value = Body.single s) →
      ∀ form : FormData,
      Form.to_form_data_loop h l form =
        .ok (form ++ l.filterMap (fun np => np.2.entryFor np.1)) := by
  intro l
  induction l with
  | nil => intro _ form; simp [Form.to_form_data_loop]
  | cons np rest ih =>
    intro hsingle form
    obtain ⟨name, part⟩ := np
    obtain ⟨s, hs⟩ := hsingle (name, part) (List.mem_cons_self _ _)
    obtain ⟨e, he, happend⟩ := append_to_form_entryFor h part name form s hs hball happ
    simp only [Form.to_form_data_loop, happend]
    rw [ih (fun np hnp => hsingle np (List.mem_cons_of_mem _ hnp)) (form ++ [e])]
    simp [List.filterMap_cons, he]

theorem entryFor_length (l : List (String × Part))
    (hsingle : ∀ np ∈ l, ∃ s, np.2.value = Body.single s) :
    (l.filterMap (fun np => np.2.entryFor np.1)).length = l.length := by
  induction l with
  | nil => rfl
  | cons np rest ih =>
    obtain ⟨name, part⟩ := np
    obtain ⟨s, hs⟩ := hsingle (name, part) (List.mem_cons_self _ _)
    obtain ⟨e, he, _⟩ := append_to_form_entryFor okHost part name [] s hs
      (fun _ _ => rfl) (fun _ _ => rfl)
    simp [List.filterMap_cons, he,
      ih (fun np hnp => hsingle np (List.mem_cons_of_mem _ hnp))]

/-- C6: `Form::part` appends the new (name, part) pair at the end, preserving
all previously appended pairs and their relative order (duplicate names are
just list entries); and the encoder issues exactly one sink operation per
field, in insertion order: on an error-free host the resulting sink's entry
list is the field list mapped one-to-one, in order, to each field's entry. -/
theorem C6_insertion_order (h : Host) (f g : Form) (n : String) (p : Part)
    (hball : ∀ bs t, h.blobBuildErr bs t = none)
    (happ : ∀ st e, h.appendErr st e = none)
    (hn : h.newFormDataErr = none)
    (hsingle : ∀ np ∈ f.inner.fields, ∃ s, np.2.value = Body.single s) :
    (g.part n p).inner.fields = g.inner.fields ++ [(n, p)] ∧
      f.to_form_data h = .ok (f.inner.fields.filterMap (fun np => np.2.entryFor np.1)) ∧
      (f.inner.fields.filterMap (fun np => np.2.entryFor np.1)).length =
        f.inner.fields.length := by
  refine ⟨rfl, ?_, entryFor_length _ hsingle⟩
  unfold Form.to_form_data
  rw [hn]
  simpa using to_form_data_loop_all_ok h hball happ f.inner.fields hsingle []

/-- C6 witness: a form with a duplicated name encodes to one string entry per
field, in insertion order. -/
theorem C6_insertion_order_witness :
    ((Form.new.text "a" "1").part "x" (Part.text "v")).inner.fields =
        (Form.new.text "a" "1").inner.fields ++ [("x", Part.text "v")] ∧
      ((Form.new.text "a" "1").text "a" "2").to_form_data okHost =
        .ok (((Form.new.text "a" "1").text "a" "2").inner.fields.filterMap
          (fun np => np.2.entryFor np.1)) ∧
      (((Form.new.text "a" "1").text "a" "2").inner.fields.filterMap
          (fun np => np.2.entryFor np.1)).length =
        ((Form.new.text "a" "1").text "a" "2").inner.fields.length :=
  C6_insertion_order okHost ((Form.new.text "a" "1").text "a" "2") (Form.new.text "a" "1")
    "x" (Part.text "v") (fun _ _ => rfl) (fun _ _ => rfl) rfl
    (by intro np hnp; fin_cases hnp <;> exact ⟨_, rfl⟩)

theorem host_append_not_panic (h : Host) (form : FormData) (e : FormEntry) :
    (h.append form e).isPanic = false := by
  unfold Host.append
  cases h.appendErr form e <;> rfl

theorem appendBlobTo_not_panic (h : Host) (p : Part) (mime_type : Option Mime)
    (name : String) (form : FormData) (s : Single) (hs : p.value = .single s) :
    (p.appendBlobTo h mime_type name form).isPanic = false := by
  unfold Part.appendBlobTo Part.blob
  rw [hs]
  simp only [Body.as_single]
  cases h.blobBuildErr s.to_js_value (mime_type.map Mime.asString) with
  | some e => rfl
  | none =>
    cases p.metadata.file_name <;> simp [host_append_not_panic]

theorem publicPart_value_single (p : Part) (hp : PublicPart p) :
    ∃ s, p.value = Body.single s := by
  induction hp with
  | text v => exact ⟨_, rfl⟩
  | bytes bs => exact ⟨_, rfl⟩
  | stream s => cases s <;> exact ⟨_, rfl⟩
  | mime_str p q s hp hq ih =>
    unfold Part.mime_str at hq
    cases hpm : parseMime s with
    | none => rw [hpm] at hq; exact absurd hq (by simp)
    | some m =>
      rw [hpm] at hq
      simp only [Except.ok.injEq] at hq
      subst hq
      exact ih
  | file_name p fn hp ih => exact ih
  | headers p hd hp ih => exact ih

/-- C8: A part built through the public constructors and builders never has a
multipart body, so the encoder's body-is-single check always succeeds and the
nested-multipart panic branches in `append_to_form` and `blob` are unreachable
through the public API. -/
theorem C8_public_parts_never_nested (p : Part) (hp : PublicPart p) (h : Host)
    (name : String) (form : FormData) (mime_type : Option Mime) :
    p.value ≠ Body.multipart ∧ (p.value.as_single).isSome = true ∧
      (p.append_to_form h name form).isPanic = false ∧
      (p.blob h mime_type).isPanic = false := by
  obtain ⟨s, hs⟩ := publicPart_value_single p hp
  refine ⟨by rw [hs]; exact fun hc => Body.noConfusion hc, by rw [hs]; rfl, ?_, ?_⟩
  · unfold Part.append_to_form
    rw [hs]
    simp only [Body.as_single]
    cases s with
    | blob b => cases p.metadata.file_name <;> simp [host_append_not_panic]
    | text t =>
      by_cases hc : p.metadata.mime = none ∨ p.metadata.mime = some TEXT_PLAIN
      · by_cases hf : p.metadata.file_name = none
        · simp [hc, hf, host_append_not_panic]
        · simp [hc, hf, appendBlobTo_not_panic h p p.metadata.mime name form _ hs]
      · simp [hc, appendBlobTo_not_panic h p (some TEXT_PLAIN) name form _ hs]
    | bytes bs => simp [appendBlobTo_not_panic h p p.metadata.mime name form _ hs]
  · unfold Part.blob
    rw [hs]
    simp only [Body.as_single]
    cases h.blobBuildErr s.to_js_value (mime_type.map Mime.asString) <;> rfl

/-- C8 witness: instantiated at a `file_name`-decorated text part. -/
theorem C8_public_parts_never_nested_witness :
    ((Part.text "x").file_name "n.txt").value ≠ Body.multipart ∧
      (((Part.text "x").file_name "n.txt").value.as_single).isSome = true ∧
      (((Part.text "x").file_name "n.txt").append_to_form okHost "n" []).isPanic = false ∧
      (((Part.text "x").file_name "n.txt").blob okHost none).isPanic = false :=
  C8_public_parts_never_nested ((Part.text "x").file_name "n.txt")
    (PublicPart.file_name (Part.text "x") "n.txt" (PublicPart.text "x"))
    okHost "n" [] none

/-- C10: encoding takes the form by shared reference and leaves it unchanged —
the borrowed form handed back by `to_form_data_borrow` has the same field list,
re-encoding it gives the same result, and the result depends only on the field
list, so the same form value can be encoded again. -/
theorem C10_encode_leaves_form_unchanged (h : Host) (f f2 : Form)
    (hsame : f2.inner.fields = f.inner.fields) :
    (f.to_form_data_borrow h).2.inner.fields = f.inner.fields ∧
      (f.to_form_data_borrow h).2.to_form_data h = f.to_form_data h ∧
      f2.to_form_data h = f.to_form_data h := by
  refine ⟨rfl, rfl, ?_⟩
  unfold Form.to_form_data
  rw [hsame]

/-- C10 witness: a concrete two-field form, re-encoded. -/
theorem C10_encode_leaves_form_unchanged_witness :
    ((Form.new.text "a" "1").to_form_data_borrow okHost).2.inner.fields =
        (Form.new.text "a" "1").inner.fields ∧
      ((Form.new.text "a" "1").to_form_data_borrow okHost).2.to_form_data okHost =
        (Form.new.text "a" "1").to_form_data okHost ∧
      (Form.new.text "a" "1").to_form_data okHost =
        (Form.new.text "a" "1").to_form_data okHost :=
  C10_encode_leaves_form_unchanged okHost (Form.new.text "a" "1")
    (Form.new.text "a" "1") rfl

end Multipart
